import Mathlib

/-!
# RecodeX job-orchestration core: a shallow embedding

This file embeds the job-orchestration core of the RecodeX media
transcoding service in Lean and proves (or refutes) the testable
properties stated in its design specification.

Embedding conventions:
* Python `Optional[int]` fields become `Option Int`; Python truthiness of
  an optional integer (`if self.x:`) is falsity exactly on `None` and `0`.
* Floating-point size ratios are modelled over `ℚ` (the code performs a
  single exact division of two integers per record).
* The SQLite-backed record table is modelled as a `List TranscodeRecord`;
  the autoincrementing primary key is modelled by `nextId` (one more than
  the largest id in the table, hence fresh).
* Filesystem and probe outcomes (`Path.exists`, ffprobe, output-file
  existence) are inputs to the model, not modelled effects.
-/

/-- `config.TranscodeProfile` (src/recodex/config/__init__.py, class
`TranscodeProfile`): the fields relevant to lookup and job creation. -/
structure TranscodeProfile where
  name : String
  videoCodec : String
  videoCrf : Option Int
  audioCodec : String
  audioBitrate : Option String
  container : String
  preset : String
deriving DecidableEq, Repr

/-- Python `dict.get` on an insertion-ordered string-keyed dictionary,
modelled as first-match lookup on an association list.  This is exactly the
profile lookup performed at src/recodex/monitoring/__init__.py line 63
(`self.profiles.get(self.watch_folder.profile)`) and line 294
(`self.profiles.get(profile_name)`). -/
def dictGet {α : Type} (d : List (String × α)) (k : String) : Option α :=
  (d.find? (fun kv => kv.1 == k)).map (fun kv => kv.2)

/-- The default profile table built by
`RecodeXConfig.get_default_config` (src/recodex/config/__init__.py,
lines 110-141): dictionary keys are stable snake_case keys, the `name`
field holds the human-readable display name. -/
def defaultProfiles : List (String × TranscodeProfile) :=
  [ ("high_quality",
      { name := "High Quality", videoCodec := "h265", videoCrf := some 20,
        audioCodec := "copy", audioBitrate := none, container := "mkv",
        preset := "slow" }),
    ("balanced",
      { name := "Balanced", videoCodec := "h264", videoCrf := some 23,
        audioCodec := "aac", audioBitrate := some "128k", container := "mp4",
        preset := "medium" }),
    ("small_file",
      { name := "Small File", videoCodec := "h265", videoCrf := some 28,
        audioCodec := "aac", audioBitrate := some "96k", container := "mp4",
        preset := "slower" }) ]

/-- `database.TranscodeRecord` (src/recodex/database/__init__.py, class
`TranscodeRecord`): the persisted job record.  Timestamps are not needed by
any claim and are omitted; `processing_time` is kept abstract as `Option ℚ`. -/
structure TranscodeRecord where
  id : Nat
  inputPath : String
  outputPath : String
  profileName : String
  status : String
  errorMessage : Option String
  originalSize : Option Int
  finalSize : Option Int
  processingTime : Option ℚ
  hardwareAccelUsed : Bool
deriving DecidableEq, Repr

/-- `TranscodeRecord.compression_ratio` property
(src/recodex/database/__init__.py lines 47-52): Python evaluates
`if self.original_size and self.final_size and self.final_size > 0`, so the
ratio is computed only when both sizes are present ("truthy", i.e. neither
`None` nor `0`) and the final size is positive. -/
def TranscodeRecord.compressionRatio (r : TranscodeRecord) : Option ℚ :=
  match r.originalSize, r.finalSize with
  | some o, some f =>
      if o ≠ 0 ∧ f ≠ 0 ∧ 0 < f then some ((o : ℚ) / (f : ℚ)) else none
  | _, _ => none

/-- `TranscodeRecord.space_saved` property
(src/recodex/database/__init__.py lines 54-59): defined when both sizes are
truthy, as `max(0, original_size - final_size)`. -/
def TranscodeRecord.spaceSaved (r : TranscodeRecord) : Option Int :=
  match r.originalSize, r.finalSize with
  | some o, some f => if o ≠ 0 ∧ f ≠ 0 then some (max 0 (o - f)) else none
  | _, _ => none

/-- `core.TranscodeJob.get_compression_ratio`
(src/recodex/core/__init__.py lines 213-217): identical guard structure to
the record property, on the in-memory job's optional sizes. -/
def TranscodeJob.getCompressionRatio (originalSize finalSize : Option Int) :
    Option ℚ :=
  match originalSize, finalSize with
  | some o, some f =>
      if o ≠ 0 ∧ f ≠ 0 ∧ 0 < f then some ((o : ℚ) / (f : ℚ)) else none
  | _, _ => none

/-- `core.TranscodeJob.get_space_saved`
(src/recodex/core/__init__.py lines 219-223). -/
def TranscodeJob.getSpaceSaved (originalSize finalSize : Option Int) :
    Option Int :=
  match originalSize, finalSize with
  | some o, some f => if o ≠ 0 ∧ f ≠ 0 then some (max 0 (o - f)) else none
  | _, _ => none

/-- The autoincrementing integer primary key of the `transcode_records`
table: a fresh id strictly larger than every id already present. -/
def nextId (store : List TranscodeRecord) : Nat :=
  (store.foldr (fun r m => max r.id m) 0) + 1

/-- `DatabaseManager.update_record(record_id, **updates)`
(src/recodex/database/__init__.py lines 280-291): select the record with
the given primary key via `scalar_one_or_none`; if present, apply the field
updates (modelled by an arbitrary field-update function `f`) and commit;
if absent, do nothing.  The primary key is unique, so first-match update
is the faithful reading. -/
def updateRecord : List TranscodeRecord → Nat →
    (TranscodeRecord → TranscodeRecord) → List TranscodeRecord
  | [], _, _ => []
  | r :: rs, rid, f =>
      if r.id = rid then f r :: rs else r :: updateRecord rs rid f

/-- Rows selected by `Statistics.get_average_compression_ratio`
(src/recodex/database/__init__.py lines 107-117): completed records with
both sizes non-NULL and a positive final size, projected to the size pair. -/
def avgRatioRows (store : List TranscodeRecord) : List (Int × Int) :=
  store.filterMap (fun r =>
    if r.status = "completed" then
      match r.originalSize, r.finalSize with
      | some o, some f => if 0 < f then some (o, f) else none
      | _, _ => none
    else none)

/-- `Statistics.get_average_compression_ratio`
(src/recodex/database/__init__.py lines 107-123): one ratio per selected
row, then `sum(ratios) / len(ratios)` (and `0.0` on an empty selection). -/
def getAverageCompressionRatio (store : List TranscodeRecord) : ℚ :=
  let ratios := (avgRatioRows store).map (fun p => (p.1 : ℚ) / (p.2 : ℚ))
  if ratios.length = 0 then 0 else ratios.sum / (ratios.length : ℚ)

/-- Modelled from the spec (§4.6): a record is relevant to the average
compression ratio when it is completed with both sizes present and a
positive final size. -/
def specRelevant (r : TranscodeRecord) : Bool :=
  r.status == "completed" && r.originalSize.isSome &&
    (match r.finalSize with | some f => decide (0 < f) | none => false)

/-- Modelled from the spec (§3): a relevant record's own compression
ratio, original size over final size. -/
def specRecordRatio (r : TranscodeRecord) : ℚ :=
  ((r.originalSize.getD 0 : Int) : ℚ) / ((r.finalSize.getD 0 : Int) : ℚ)

/-- Modelled from the spec (§4.6, restated for comparison): the average
compression ratio is "the arithmetic mean of per-record ratios" over the
relevant records. -/
def specMeanOfRatios (store : List TranscodeRecord) : ℚ :=
  let relevant := store.filter specRelevant
  (relevant.map specRecordRatio).sum / ((relevant.length : Nat) : ℚ)

/-- The rival statistic the spec rules out: total original size divided by
total final size over the same selection ("ratio-of-sums"). -/
def ratioOfSums (store : List TranscodeRecord) : ℚ :=
  ((avgRatioRows store).map (fun p => (p.1 : ℚ))).sum /
    ((avgRatioRows store).map (fun p => (p.2 : ℚ))).sum

/-- The mutable per-handler state of `MediaFileHandler` together with the
shared `asyncio.Queue` it enqueues onto (src/recodex/monitoring/__init__.py
lines 19-25): `processed_files`, `processing_files` (Python sets of paths,
modelled as duplicate-free lists maintained by `setAdd`/`List.erase`), and
the job queue (the enqueued jobs' input paths, in order). -/
structure HandlerState where
  processedFiles : List String
  processingFiles : List String
  jobQueue : List String
deriving DecidableEq, Repr

/-- Python `set.add`: insert if not already present. -/
def setAdd (l : List String) (x : String) : List String :=
  if x ∈ l then l else x :: l

/-- `MediaFileHandler.mark_processed` (src/recodex/monitoring/__init__.py
lines 162-166): remove the path from `processing_files` if present, then
add it to `processed_files`. -/
def markProcessed (s : HandlerState) (p : String) : HandlerState :=
  { s with processingFiles := s.processingFiles.erase p,
           processedFiles := setAdd s.processedFiles p }

/-- Outcomes of the external checks consulted by
`MediaFileHandler._process_new_file` for one candidate path, which the
embedding takes as inputs: the extension filter `_is_media_file`, the
destination-exists check `_is_already_processed`, and the probe-based
`MediaInfo.needs_transcoding` decision. -/
structure FileEnv where
  isMediaFile : Bool
  isAlreadyProcessed : Bool
  needsTranscoding : Bool
deriving DecidableEq, Repr

/-- Progress of one `_process_new_file(p)` asyncio task.  The body of
`_process_new_file` (src/recodex/monitoring/__init__.py lines 39-93) has
exactly one genuine suspension point: `await self._wait_for_file_ready(...)`
at line 51, whose internal `asyncio.sleep(1)` calls yield to the event
loop.  (`_is_already_processed` and `needs_transcoding` contain no yielding
await, and `job_queue.put` on an unbounded queue does not suspend.)  So a
task is either `start` (not yet reached the dedup check), `waiting`
(suspended in the stability wait, dedup check already passed), or `done`. -/
inductive TaskPhase where
  | start
  | waiting
  | done
deriving DecidableEq, Repr

/-- One scheduler step of a `_process_new_file(p)` task
(src/recodex/monitoring/__init__.py lines 39-93), faithful to source order:

* from `start` (lines 43-51): return if `_is_media_file` fails; return if
  `p` is already in `processed_files` or `processing_files`; otherwise
  suspend in `_wait_for_file_ready` (phase `waiting`);
* from `waiting` (lines 54-88): if `_is_already_processed`, add `p` to
  `processed_files` and return; otherwise add `p` to `processing_files`,
  look the profile up with `profiles.get(watch_folder.profile)` and return
  if absent (leaving `p` in `processing_files`); if
  `needs_transcoding` is false, add `p` to `processed_files`, remove it
  from `processing_files` and return; otherwise enqueue the job. -/
def processNewFileStep (profiles : List (String × TranscodeProfile))
    (watchProfile : String) (env : FileEnv) (p : String) :
    TaskPhase → HandlerState → TaskPhase × HandlerState
  | .start, s =>
      if ¬ env.isMediaFile then (.done, s)
      else if p ∈ s.processedFiles ∨ p ∈ s.processingFiles then (.done, s)
      else (.waiting, s)
  | .waiting, s =>
      if env.isAlreadyProcessed then
        (.done, { s with processedFiles := setAdd s.processedFiles p })
      else
        let s := { s with processingFiles := setAdd s.processingFiles p }
        match dictGet profiles watchProfile with
        | none => (.done, s)
        | some _ =>
            if ¬ env.needsTranscoding then
              (.done, { s with processedFiles := setAdd s.processedFiles p,
                               processingFiles := s.processingFiles.erase p })
            else
              (.done, { s with jobQueue := s.jobQueue ++ [p] })
  | .done, s => (.done, s)

/-- Cooperative interleaving of two `_process_new_file` tasks for the same
path (two duplicate filesystem events): the schedule picks which task runs
its next segment. -/
def runTwoTasks (profiles : List (String × TranscodeProfile))
    (watchProfile : String) (env : FileEnv) (p : String) :
    List Bool → (TaskPhase × TaskPhase × HandlerState) →
    TaskPhase × TaskPhase × HandlerState
  | [], st => st
  | c :: cs, (ph1, ph2, s) =>
      let st' :=
        if c then
          let (ph1', s') := processNewFileStep profiles watchProfile env p ph1 s
          (ph1', ph2, s')
        else
          let (ph2', s') := processNewFileStep profiles watchProfile env p ph2 s
          (ph1, ph2', s')
      runTwoTasks profiles watchProfile env p cs st'

/-- Run a single `_process_new_file` task to completion (the sequential
case: the next event is only handled after this one finished). -/
def runOneTask (profiles : List (String × TranscodeProfile))
    (watchProfile : String) (env : FileEnv) (p : String)
    (s : HandlerState) : HandlerState :=
  let (ph, s) := processNewFileStep profiles watchProfile env p .start s
  (processNewFileStep profiles watchProfile env p ph s).2

/-- One poll of `MediaFileHandler._wait_for_file_ready`
(src/recodex/monitoring/__init__.py lines 99-126) restricted to traces
where the file exists at every sample (a "trace of sampled sizes"):
`sizes t` is the size observed by the sample at second `t`.  Fuel counts
the remaining iterations of `for _ in range(timeout)` with `timeout = 30`.
Returns the index of the sample at which the function signalled ready, or
`none` when the budget was exhausted (the code logs a warning and treats
the file as ready). -/
def waitForFileReadyAux (sizes : Nat → Nat) :
    Nat → Nat → Nat → Nat → Option Nat
  | 0, _, _, _ => none
  | fuel + 1, t, prev, count =>
      let cur := sizes t
      if cur = prev ∧ 0 < cur then
        if 3 ≤ count + 1 then some t
        else waitForFileReadyAux sizes fuel (t + 1) prev (count + 1)
      else waitForFileReadyAux sizes fuel (t + 1) cur 0

/-- `MediaFileHandler._wait_for_file_ready` with its default budget of 30
samples, initial `previous_size = 0` and `stable_count = 0`. -/
def waitForFileReady (sizes : Nat → Nat) : Option Nat :=
  waitForFileReadyAux sizes 30 0 0 0

/-- Sample `j` is a stable confirmation: it repeats the previous sample's
size and that size is non-zero.  Sample 0 is never stable (it is compared
against the initial `previous_size = 0`, and a zero size fails the
`current_size > 0` test). -/
def stableAt (sizes : Nat → Nat) (j : Nat) : Prop :=
  0 < j ∧ sizes j = sizes (j - 1) ∧ 0 < sizes j

instance (sizes : Nat → Nat) (j : Nat) : Decidable (stableAt sizes j) := by
  unfold stableAt; infer_instance

/-- The terminal outcome of the transcoding attempt inside
`TranscodeWorker._process_job` (src/recodex/workers/__init__.py
lines 91-137): the engine returns success with the job's measured sizes
and duration, or returns failure with the job's recorded error message and
duration, or an exception escapes with message `err`. -/
inductive Outcome where
  | success (originalSize finalSize : Int) (dur : Option ℚ)
  | failure (err : String) (dur : Option ℚ)
  | exc (err : String)
deriving DecidableEq, Repr

/-- `TranscodeWorker._process_job` (src/recodex/workers/__init__.py
lines 60-140) acting on the record store and the originating watcher's
state, faithful to source order:

1. create and persist a `pending` record for the job (lines 69-78);
2. `update_record(..., status="running")` (lines 85-89);
3. on success: `update_record` to `completed` with sizes, duration and the
   profile's hardware-accel flag, then `file_monitor.mark_job_processed`
   which calls the handler's `mark_processed` on the input path
   (lines 101-113, and monitoring lines 269-277);
4. on engine failure: `update_record` to `failed` with the job's
   `error_message` and duration; no watcher call (lines 117-126);
5. on an exception: `update_record` to `failed` with `str(e)`; no watcher
   call (lines 128-137). -/
def processJob (store : List TranscodeRecord) (watcher : HandlerState)
    (inputPath outputPath profileName : String) (hwAccel : Bool)
    (outcome : Outcome) : List TranscodeRecord × HandlerState :=
  let rid := nextId store
  let rec0 : TranscodeRecord :=
    { id := rid, inputPath := inputPath, outputPath := outputPath,
      profileName := profileName, status := "pending", errorMessage := none,
      originalSize := none, finalSize := none, processingTime := none,
      hardwareAccelUsed := false }
  let store1 := store ++ [rec0]
  let store2 := updateRecord store1 rid (fun r => { r with status := "running" })
  match outcome with
  | .success o f dur =>
      (updateRecord store2 rid (fun r =>
        { r with status := "completed", originalSize := some o,
                 finalSize := some f, processingTime := dur,
                 hardwareAccelUsed := hwAccel }),
       markProcessed watcher inputPath)
  | .failure err dur =>
      (updateRecord store2 rid (fun r =>
        { r with status := "failed", errorMessage := some err,
                 processingTime := dur }),
       watcher)
  | .exc err =>
      (updateRecord store2 rid (fun r =>
        { r with status := "failed", errorMessage := some err }),
       watcher)

/-- The two rejection modes of the reprocess operation: an identity error
(no record with that id) or a state error (record not terminal). -/
inductive ReprocessError where
  | notFound
  | invalidState
deriving DecidableEq, Repr

/-- Modelled from the spec: `DatabaseManager.reprocess_job` is exercised by
src/tests/test_job_management.py, src/tests/test_web_api.py and
src/demo_improvements.py, but its implementation is absent from
src/recodex/database/__init__.py; this definition follows spec §4.5:
"`reprocess` fails with an identity error if no record with that id exists,
and fails with a state error if the record's current status is not
`completed` or `failed` [...].  On success it creates and persists a new
record with the same source path, destination path, and profile name,
status `pending`, and returns that new record's identity and fields."
The returned store makes the mutation (or its absence) observable. -/
def reprocessJob (store : List TranscodeRecord) (rid : Nat) :
    List TranscodeRecord × Except ReprocessError TranscodeRecord :=
  match store.find? (fun r => r.id == rid) with
  | none => (store, .error .notFound)
  | some r =>
      if r.status = "completed" ∨ r.status = "failed" then
        let n : TranscodeRecord :=
          { id := nextId store, inputPath := r.inputPath,
            outputPath := r.outputPath, profileName := r.profileName,
            status := "pending", errorMessage := none, originalSize := none,
            finalSize := none, processingTime := none,
            hardwareAccelUsed := false }
        (store ++ [n], .ok n)
      else (store, .error .invalidState)

/-! ## Store helper lemmas -/

theorem id_le_fold (store : List TranscodeRecord) :
    ∀ r ∈ store, r.id ≤ store.foldr (fun r m => max r.id m) 0 := by
  induction store with
  | nil => intro r h; cases h
  | cons a l ih =>
      intro r h
      cases h with
      | head => exact le_max_left _ _
      | tail _ h =>
          exact le_trans (ih r h) (le_max_right _ _)

theorem id_ne_nextId (store : List TranscodeRecord) :
    ∀ r ∈ store, r.id ≠ nextId store := by
  intro r h
  have := id_le_fold store r h
  unfold nextId
  omega

theorem updateRecord_absent (store : List TranscodeRecord) (rid : Nat)
    (f : TranscodeRecord → TranscodeRecord)
    (h : ∀ r ∈ store, r.id ≠ rid) : updateRecord store rid f = store := by
  induction store with
  | nil => rfl
  | cons a l ih =>
      unfold updateRecord
      rw [if_neg (h a (List.mem_cons_self a l))]
      rw [ih (fun r hr => h r (List.mem_cons_of_mem a hr))]

theorem updateRecord_append_fresh (store : List TranscodeRecord) (rid : Nat)
    (r : TranscodeRecord) (f : TranscodeRecord → TranscodeRecord)
    (hid : r.id = rid) (h : ∀ r' ∈ store, r'.id ≠ rid) :
    updateRecord (store ++ [r]) rid f = store ++ [f r] := by
  induction store with
  | nil => simp [updateRecord, hid]
  | cons a l ih =>
      have ha : a.id ≠ rid := h a (List.mem_cons_self a l)
      have ih' := ih (fun r' hr => h r' (List.mem_cons_of_mem a hr))
      simp only [List.cons_append, updateRecord, if_neg ha]
      exact congrArg _ ih'

/-- Evaluation of `processJob` in the engine-failure case: the new record
(and only it) is appended, driven through `pending`, `running`, `failed`,
and the watcher's state is returned untouched. -/
theorem processJob_failure (store : List TranscodeRecord)
    (w : HandlerState) (inp out pn : String) (hw : Bool) (e : String)
    (dur : Option ℚ) :
    processJob store w inp out pn hw (.failure e dur) =
      (store ++ [{ id := nextId store, inputPath := inp, outputPath := out,
                   profileName := pn, status := "failed",
                   errorMessage := some e, originalSize := none,
                   finalSize := none, processingTime := dur,
                   hardwareAccelUsed := false }], w) := by
  show (updateRecord (updateRecord (store ++ [_]) (nextId store) _)
          (nextId store) _, w) = _
  rw [updateRecord_append_fresh store (nextId store) _ _ rfl
        (id_ne_nextId store)]
  rw [updateRecord_append_fresh store (nextId store) _ _ rfl
        (id_ne_nextId store)]

/-- Evaluation of `processJob` in the escaped-exception case. -/
theorem processJob_exc (store : List TranscodeRecord)
    (w : HandlerState) (inp out pn : String) (hw : Bool) (e : String) :
    processJob store w inp out pn hw (.exc e) =
      (store ++ [{ id := nextId store, inputPath := inp, outputPath := out,
                   profileName := pn, status := "failed",
                   errorMessage := some e, originalSize := none,
                   finalSize := none, processingTime := none,
                   hardwareAccelUsed := false }], w) := by
  show (updateRecord (updateRecord (store ++ [_]) (nextId store) _)
          (nextId store) _, w) = _
  rw [updateRecord_append_fresh store (nextId store) _ _ rfl
        (id_ne_nextId store)]
  rw [updateRecord_append_fresh store (nextId store) _ _ rfl
        (id_ne_nextId store)]

/-! ## Claim theorems -/

/-- A concrete record used to instantiate witnesses. -/
def sampleCompleted : TranscodeRecord :=
  { id := 1, inputPath := "/in/a.mp4", outputPath := "/out/a.mp4",
    profileName := "balanced", status := "completed", errorMessage := none,
    originalSize := some 1000000, finalSize := some 500000,
    processingTime := some 60, hardwareAccelUsed := false }

/-- C10: `DatabaseManager.update_record` called with an id that matches no
stored record returns normally (it is a total function here, mirroring the
code's single `if record:` guard with no else branch and no raise) and
leaves every stored record unchanged, for any set of field updates. -/
theorem c10_update_record_missing_id_noop
    (store : List TranscodeRecord) (rid : Nat)
    (f : TranscodeRecord → TranscodeRecord)
    (h : ∀ r ∈ store, r.id ≠ rid) :
    updateRecord store rid f = store :=
  updateRecord_absent store rid f h

/-- Witness for C10 at a concrete store, id 99999 and a concrete update. -/
theorem c10_witness :
    (∀ r ∈ [sampleCompleted], r.id ≠ 99999) ∧
      updateRecord [sampleCompleted] 99999
        (fun r => { r with status := "failed" }) = [sampleCompleted] :=
  ⟨by decide,
   c10_update_record_missing_id_noop [sampleCompleted] 99999
     (fun r => { r with status := "failed" }) (by decide)⟩

/-- C9: for both the in-memory `TranscodeJob` getters and the persisted
`TranscodeRecord` properties, the compression ratio is `none` (no division
performed) whenever the final size is zero or either size is missing, and
the space-saved value, whenever defined, equals `max 0 (original - final)`
and is never negative. -/
theorem c9_ratio_undefined_space_saved_nonneg (r : TranscodeRecord) :
    ((r.finalSize = some 0 ∨ r.finalSize = none ∨ r.originalSize = none) →
      r.compressionRatio = none ∧
        TranscodeJob.getCompressionRatio r.originalSize r.finalSize = none) ∧
    (∀ v, r.spaceSaved = some v →
      ∃ o f, r.originalSize = some o ∧ r.finalSize = some f ∧
        v = max 0 (o - f) ∧ 0 ≤ v) ∧
    (∀ v, TranscodeJob.getSpaceSaved r.originalSize r.finalSize = some v →
      ∃ o f, r.originalSize = some o ∧ r.finalSize = some f ∧
        v = max 0 (o - f) ∧ 0 ≤ v) := by
  refine ⟨fun h => ?_, fun v hv => ?_, fun v hv => ?_⟩
  · rcases ho : r.originalSize with _ | o <;>
      rcases hf : r.finalSize with _ | f <;>
      simp only [TranscodeRecord.compressionRatio,
        TranscodeJob.getCompressionRatio, ho, hf] <;>
      rcases h with h | h | h <;>
      simp_all
  · rcases ho : r.originalSize with _ | o <;>
      rcases hf : r.finalSize with _ | f <;>
      simp only [TranscodeRecord.spaceSaved, ho, hf] at hv
    · exact absurd hv (by simp)
    · exact absurd hv (by simp)
    · exact absurd hv (by simp)
    · refine ⟨o, f, rfl, rfl, ?_, ?_⟩ <;> (split at hv <;> simp_all <;> omega)
  · rcases ho : r.originalSize with _ | o <;>
      rcases hf : r.finalSize with _ | f <;>
      simp only [TranscodeJob.getSpaceSaved, ho, hf] at hv
    · exact absurd hv (by simp)
    · exact absurd hv (by simp)
    · exact absurd hv (by simp)
    · refine ⟨o, f, rfl, rfl, ?_, ?_⟩ <;> (split at hv <;> simp_all <;> omega)

/-- Witness for C9 at a concrete record (final size missing, original
10 bytes): the ratio is undefined in both models. -/
theorem c9_witness :
    ({ sampleCompleted with finalSize := none }).compressionRatio = none ∧
      TranscodeJob.getCompressionRatio
        ({ sampleCompleted with finalSize := none }).originalSize
        ({ sampleCompleted with finalSize := none }).finalSize = none :=
  (c9_ratio_undefined_space_saved_nonneg
    { sampleCompleted with finalSize := none }).1 (Or.inr (Or.inl rfl))

/-- C2: reprocessing a stored record whose status is `completed` or
`failed` creates and persists exactly one new record (the store becomes the
old store with a single appended record, so the original record — and every
other record — is unchanged), the new record carries the same source path,
destination path and profile name, has status `pending` and a fresh id
distinct from every stored id, and that new record is what is returned. -/
theorem c2_reprocess_terminal_clones
    (store : List TranscodeRecord) (rid : Nat) (r : TranscodeRecord)
    (hfind : store.find? (fun x => x.id == rid) = some r)
    (hst : r.status = "completed" ∨ r.status = "failed") :
    ∃ n, reprocessJob store rid = (store ++ [n], .ok n) ∧
      n.inputPath = r.inputPath ∧ n.outputPath = r.outputPath ∧
      n.profileName = r.profileName ∧ n.status = "pending" ∧
      ∀ r' ∈ store, r'.id ≠ n.id := by
  refine ⟨{ id := nextId store, inputPath := r.inputPath,
            outputPath := r.outputPath, profileName := r.profileName,
            status := "pending", errorMessage := none, originalSize := none,
            finalSize := none, processingTime := none,
            hardwareAccelUsed := false },
          ?_, rfl, rfl, rfl, rfl,
          fun r' h => id_ne_nextId store r' h⟩
  simp only [reprocessJob, hfind, if_pos hst]

/-- Witness for C2: a one-record store holding a `completed` record with
id 1; reprocessing id 1 appends a clone in `pending` state. -/
theorem c2_witness :
    ([sampleCompleted].find? (fun x => x.id == 1) = some sampleCompleted ∧
      sampleCompleted.status = "completed") ∧
    ∃ n, reprocessJob [sampleCompleted] 1 = ([sampleCompleted] ++ [n], .ok n) ∧
      n.inputPath = sampleCompleted.inputPath ∧
      n.outputPath = sampleCompleted.outputPath ∧
      n.profileName = sampleCompleted.profileName ∧ n.status = "pending" ∧
      ∀ r' ∈ [sampleCompleted], r'.id ≠ n.id :=
  ⟨⟨by decide, rfl⟩,
   c2_reprocess_terminal_clones [sampleCompleted] 1 sampleCompleted
     (by decide) (Or.inl rfl)⟩

/-- C3: `reprocess` on an id matching no stored record yields the identity
error, and on a record whose status is `pending` or `running` yields the
state error; in both cases the returned store is exactly the input store —
no record is created or modified. -/
theorem c3_reprocess_rejections (store : List TranscodeRecord) (rid : Nat) :
    (store.find? (fun x => x.id == rid) = none →
      reprocessJob store rid = (store, .error .notFound)) ∧
    (∀ r, store.find? (fun x => x.id == rid) = some r →
      (r.status = "pending" ∨ r.status = "running") →
      reprocessJob store rid = (store, .error .invalidState)) := by
  constructor
  · intro h
    simp only [reprocessJob, h]
  · intro r hfind hst
    have hne : ¬ (r.status = "completed" ∨ r.status = "failed") := by
      rintro (h | h) <;> rcases hst with hs | hs <;> rw [hs] at h <;>
        exact absurd h (by decide)
    simp only [reprocessJob, hfind, if_neg hne]

/-- Witness for C3: the empty store rejects id 99999 with the identity
error, and a store holding only a `pending` record rejects its id with the
state error. -/
theorem c3_witness :
    reprocessJob [] 99999 = ([], .error .notFound) ∧
      reprocessJob [{ sampleCompleted with status := "pending" }] 1 =
        ([{ sampleCompleted with status := "pending" }],
          .error .invalidState) :=
  ⟨(c3_reprocess_rejections [] 99999).1 rfl,
   (c3_reprocess_rejections [{ sampleCompleted with status := "pending" }]
      1).2 { sampleCompleted with status := "pending" } (by decide)
     (Or.inl rfl)⟩

/-- The SQL selection of `get_average_compression_ratio` picks out exactly
the spec-relevant records, and row-by-row the computed ratio agrees. -/
theorem ratio_lists_eq (store : List TranscodeRecord) :
    (avgRatioRows store).map (fun p => (p.1 : ℚ) / (p.2 : ℚ)) =
    (store.filter specRelevant).map specRecordRatio := by
  induction store with
  | nil => rfl
  | cons a l ih =>
      by_cases h1 : a.status = "completed"
      · rcases ho : a.originalSize with _ | o
        · simpa [avgRatioRows, List.filter_cons, specRelevant, h1, ho]
            using ih
        · rcases hf : a.finalSize with _ | f
          · simpa [avgRatioRows, List.filter_cons, specRelevant, h1, ho, hf]
              using ih
          · by_cases h2 : (0 : Int) < f
            · simpa [avgRatioRows, List.filter_cons, specRelevant,
                specRecordRatio, h1, ho, hf, h2] using ih
            · simpa [avgRatioRows, List.filter_cons, specRelevant, h1, ho,
                hf, h2] using ih
      · simpa [avgRatioRows, List.filter_cons, specRelevant, h1] using ih

/-- Two completed records with ratios 2 and 3: the mean of ratios is 5/2
while the ratio of sums is 400/150 = 8/3. -/
def c8Example : List TranscodeRecord :=
  [ { id := 1, inputPath := "/in/a.mp4", outputPath := "/out/a.mp4",
      profileName := "balanced", status := "completed", errorMessage := none,
      originalSize := some 100, finalSize := some 50, processingTime := none,
      hardwareAccelUsed := false },
    { id := 2, inputPath := "/in/b.mp4", outputPath := "/out/b.mp4",
      profileName := "balanced", status := "completed", errorMessage := none,
      originalSize := some 300, finalSize := some 100, processingTime := none,
      hardwareAccelUsed := false } ]

/-- C8: over any store whose selection of completed records with both
sizes and a positive final size is non-empty, the code's average
compression ratio equals the spec's arithmetic mean of per-record ratios;
and on a concrete two-record store the statistic differs from the
ratio-of-sums, so the code computes mean-of-ratios, not ratio-of-sums. -/
theorem c8_average_ratio_is_mean_of_ratios :
    (∀ store : List TranscodeRecord, avgRatioRows store ≠ [] →
      getAverageCompressionRatio store = specMeanOfRatios store) ∧
    getAverageCompressionRatio c8Example ≠ ratioOfSums c8Example := by
  constructor
  · intro store hne
    have hlist := ratio_lists_eq store
    have hfil : store.filter specRelevant ≠ [] := by
      intro h
      apply hne
      have : (avgRatioRows store).map (fun p => (p.1 : ℚ) / (p.2 : ℚ)) = [] := by
        rw [hlist, h]; rfl
      exact List.map_eq_nil_iff.mp this
    unfold getAverageCompressionRatio specMeanOfRatios
    simp only [hlist, List.length_map]
    rw [if_neg (by simpa using hfil)]
  · have h0 : avgRatioRows c8Example = [(100, 50), (300, 100)] := by decide
    unfold getAverageCompressionRatio ratioOfSums
    rw [h0]
    norm_num

/-- Witness for C8 at the concrete two-record store. -/
theorem c8_witness :
    avgRatioRows c8Example ≠ [] ∧
      getAverageCompressionRatio c8Example = specMeanOfRatios c8Example :=
  ⟨by decide, c8_average_ratio_is_mean_of_ratios.1 c8Example (by decide)⟩

/-- C4 (refutation): the profile lookup actually performed by the watcher
and by manual submission is a plain dictionary `get` on the profile table,
so a reference equal to a profile's human-readable `name` (here
"Small File", whose table key is "small_file") finds nothing, even though
lookup by the stable key succeeds.  The repository's own
tests/test_profile_lookup.py requires the name-form lookup to succeed. -/
theorem c4_lookup_by_display_name_fails :
    dictGet defaultProfiles "Small File" = none ∧
    defaultProfiles.any (fun kv => kv.2.name == "Small File") = true ∧
    dictGet defaultProfiles "small_file" =
      some { name := "Small File", videoCodec := "h265", videoCrf := some 28,
             audioCodec := "aac", audioBitrate := some "96k",
             container := "mp4", preset := "slower" } := by
  decide

/-- C1 (refutation): two duplicate creation events for the same path spawn
two `_process_new_file` tasks.  Both run their dedup check (which precedes
the suspension inside `_wait_for_file_ready`) while neither has yet marked
the path in-flight, so both resume and both enqueue: with the schedule
T1-check, T2-check, T1-finish, T2-finish the path is enqueued twice while
never having been marked processed. -/
theorem c1_duplicate_events_enqueue_twice :
    runTwoTasks defaultProfiles "balanced"
      { isMediaFile := true, isAlreadyProcessed := false,
        needsTranscoding := true }
      "/watch/a.mp4" [true, false, true, false]
      (.start, .start,
        { processedFiles := [], processingFiles := [], jobQueue := [] }) =
      (.done, .done,
        { processedFiles := [], processingFiles := ["/watch/a.mp4"],
          jobQueue := ["/watch/a.mp4", "/watch/a.mp4"] }) := by
  decide

/-- C6 (counterexample): a watch target referencing the display name
"Small File" against the default table (whose keys are snake_case) makes
the lookup fail; the source adds the path to `processing_files` at line 60,
*before* the lookup at line 63, and the early return at line 66 does not
remove it.  So the path IS marked in the watcher's dedup state, and a
subsequent event for the same path is rejected by the dedup check instead
of being retried. -/
theorem c6_unknown_profile_counterexample :
    runOneTask defaultProfiles "Small File"
        { isMediaFile := true, isAlreadyProcessed := false,
          needsTranscoding := true }
        "/watch/movie.mkv"
        { processedFiles := [], processingFiles := [], jobQueue := [] } =
      { processedFiles := [], processingFiles := ["/watch/movie.mkv"],
        jobQueue := [] } ∧
    processNewFileStep defaultProfiles "Small File"
        { isMediaFile := true, isAlreadyProcessed := false,
          needsTranscoding := true }
        "/watch/movie.mkv" .start
        { processedFiles := [], processingFiles := ["/watch/movie.mkv"],
          jobQueue := [] } =
      (.done,
        { processedFiles := [], processingFiles := ["/watch/movie.mkv"],
          jobQueue := [] }) := by
  decide

/-- C6 (amended): when the watch target's profile reference is absent from
the profile table, processing a new media path enqueues nothing and marks
nothing processed — but the path is left in the in-flight `processing_files`
set, so a later event for the same path is dropped by the dedup check
rather than retried. -/
theorem c6_unknown_profile_blocks_retry
    (profiles : List (String × TranscodeProfile)) (wfp : String)
    (env : FileEnv) (p : String) (s : HandlerState)
    (hm : env.isMediaFile = true) (ha : env.isAlreadyProcessed = false)
    (hlookup : dictGet profiles wfp = none)
    (hp1 : p ∉ s.processedFiles) (hp2 : p ∉ s.processingFiles) :
    runOneTask profiles wfp env p s =
      { s with processingFiles := p :: s.processingFiles } ∧
    processNewFileStep profiles wfp env p .start
        { s with processingFiles := p :: s.processingFiles } =
      (.done, { s with processingFiles := p :: s.processingFiles }) := by
  have hdedup : ¬ (p ∈ s.processedFiles ∨ p ∈ s.processingFiles) := by
    simp [hp1, hp2]
  have h1 : processNewFileStep profiles wfp env p .start s = (.waiting, s) := by
    unfold processNewFileStep
    simp [hm, hdedup]
  have h2 : processNewFileStep profiles wfp env p .waiting s =
      (.done, { s with processingFiles := p :: s.processingFiles }) := by
    unfold processNewFileStep
    simp [ha, hlookup, setAdd, hp2]
  constructor
  · unfold runOneTask
    rw [h1]
    show (processNewFileStep profiles wfp env p .waiting s).2 = _
    rw [h2]
  · unfold processNewFileStep
    simp [hm, List.mem_cons]

/-- Witness for the amended C6 at the concrete misconfigured watch target. -/
theorem c6_witness :
    runOneTask defaultProfiles "Small File"
        { isMediaFile := true, isAlreadyProcessed := false,
          needsTranscoding := true }
        "/watch/b.mkv"
        { processedFiles := [], processingFiles := [], jobQueue := [] } =
      { processedFiles := [], processingFiles := ["/watch/b.mkv"],
        jobQueue := [] } :=
  (c6_unknown_profile_blocks_retry defaultProfiles "Small File"
    { isMediaFile := true, isAlreadyProcessed := false,
      needsTranscoding := true }
    "/watch/b.mkv"
    { processedFiles := [], processingFiles := [], jobQueue := [] }
    rfl rfl (by decide) (by decide) (by decide)).1

/-- C5 (counterexample): a job for `/in/a.mp4` whose transcoding fails.
The record does end `failed` with the error message and the path is not
marked processed — but nothing removes the path from the watcher's
in-flight `processing_files` set: `mark_job_processed` is invoked only in
the worker's success branch, and `mark_processed` is the only code that
ever removes a path from that set.  The path therefore remains in-flight
after the failure, refuting the claim's "clears the path's in-flight
marker" conjunct. -/
theorem c5_failure_leaves_in_flight_counterexample :
    processJob []
        { processedFiles := [], processingFiles := ["/in/a.mp4"],
          jobQueue := [] }
        "/in/a.mp4" "/out/a.mp4" "balanced" false (.failure "boom" none) =
      ([{ id := 1, inputPath := "/in/a.mp4", outputPath := "/out/a.mp4",
          profileName := "balanced", status := "failed",
          errorMessage := some "boom", originalSize := none,
          finalSize := none, processingTime := none,
          hardwareAccelUsed := false }],
       { processedFiles := [], processingFiles := ["/in/a.mp4"],
         jobQueue := [] }) := by
  decide

/-- C5 (amended): on any failing execution — engine failure or escaped
exception — the worker appends exactly one record for the job and drives it
to `failed` carrying the error message, and the watcher's state is returned
completely unchanged: the path is not marked processed, and the in-flight
marker is NOT cleared either (no failure feedback to the watcher exists),
so the path stays blocked from re-submission. -/
theorem c5_failed_job_record_and_watcher_untouched
    (store : List TranscodeRecord) (w : HandlerState)
    (inp out pn : String) (hw : Bool) (e : String) (dur : Option ℚ) :
    processJob store w inp out pn hw (.failure e dur) =
      (store ++ [{ id := nextId store, inputPath := inp, outputPath := out,
                   profileName := pn, status := "failed",
                   errorMessage := some e, originalSize := none,
                   finalSize := none, processingTime := dur,
                   hardwareAccelUsed := false }], w) ∧
    processJob store w inp out pn hw (.exc e) =
      (store ++ [{ id := nextId store, inputPath := inp, outputPath := out,
                   profileName := pn, status := "failed",
                   errorMessage := some e, originalSize := none,
                   finalSize := none, processingTime := none,
                   hardwareAccelUsed := false }], w) :=
  ⟨processJob_failure store w inp out pn hw e dur,
   processJob_exc store w inp out pn hw e⟩

/-- Three consecutive stable confirmations ending at sample `t`: samples
`t-3`, `t-2`, `t-1`, `t` all carry the same non-zero size. -/
def readyWindow (sizes : Nat → Nat) (t : Nat) : Prop :=
  stableAt sizes t ∧ stableAt sizes (t - 1) ∧ stableAt sizes (t - 2)

/-- Loop invariant characterisation of `_wait_for_file_ready`: starting at
sample `t` with `previous_size = prev` (the previous sample's size, or the
initial 0) and `stable_count = count` (the length of the current run of
stable confirmations, capped below 3, with the run provably ending just
before it), the loop returns the first sample index completing a
three-confirmation window, or `none` when no window completes within the
remaining budget. -/
theorem waitForFileReadyAux_spec (sizes : Nat → Nat) :
    ∀ fuel t prev count,
      count ≤ 2 →
      prev = (if t = 0 then 0 else sizes (t - 1)) →
      (∀ k, k < count → stableAt sizes (t - 1 - k)) →
      ¬ stableAt sizes (t - 1 - count) →
      (∀ r, waitForFileReadyAux sizes fuel t prev count = some r →
        t ≤ r ∧ r < t + fuel ∧ readyWindow sizes r ∧
          ∀ u, t ≤ u → u < r → ¬ readyWindow sizes u) ∧
      (waitForFileReadyAux sizes fuel t prev count = none →
        ∀ u, t ≤ u → u < t + fuel → ¬ readyWindow sizes u) := by
  intro fuel
  induction fuel with
  | zero =>
      intro t prev count _ _ _ _
      constructor
      · intro r hr
        exact absurd hr (by simp [waitForFileReadyAux])
      · intro _ u hu1 hu2
        omega
  | succ fuel ih =>
      intro t prev count hcount hprev h3 h4
      by_cases hcond : sizes t = prev ∧ 0 < sizes t
      · have ht0 : t ≠ 0 := by
          intro h0
          rw [h0] at hprev hcond
          simp at hprev
          omega
        have hprev' : prev = sizes (t - 1) := by
          rw [hprev, if_neg ht0]
        have hstab : stableAt sizes t :=
          ⟨Nat.pos_of_ne_zero ht0, by rw [hcond.1, hprev'], hcond.2⟩
        by_cases hc3 : 3 ≤ count + 1
        · have hcount2 : count = 2 := by omega
          have hstep : waitForFileReadyAux sizes (fuel + 1) t prev count =
              some t := by
            simp only [waitForFileReadyAux]
            rw [if_pos hcond, if_pos hc3]
          have hw : readyWindow sizes t := by
            refine ⟨hstab, ?_, ?_⟩
            · have := h3 0 (by omega)
              simpa using this
            · have := h3 1 (by omega)
              have he : t - 1 - 1 = t - 2 := by omega
              rwa [he] at this
          constructor
          · intro r hr
            rw [hstep] at hr
            injection hr with hr
            subst hr
            exact ⟨le_refl t, by omega, hw, fun u hu1 hu2 => by omega⟩
          · intro hnone
            rw [hstep] at hnone
            exact absurd hnone (by simp)
        · -- run continues with count + 1
          have hnr : ¬ readyWindow sizes t := by
            rintro ⟨w1, w2, w3⟩
            rcases Nat.lt_or_ge count 1 with hc | hc
            · have hc0 : count = 0 := by omega
              rw [hc0] at h4
              exact h4 (by simpa using w2)
            · have hc1 : count = 1 := by omega
              rw [hc1] at h4
              have he : t - 1 - 1 = t - 2 := by omega
              rw [he] at h4
              exact h4 w3
          have hstep : waitForFileReadyAux sizes (fuel + 1) t prev count =
              waitForFileReadyAux sizes fuel (t + 1) prev (count + 1) := by
            simp only [waitForFileReadyAux]
            rw [if_pos hcond, if_neg hc3]
          have hprev2 : prev = (if t + 1 = 0 then 0 else sizes (t + 1 - 1)) := by
            simp [hcond.1.symm]
          have h3' : ∀ k, k < count + 1 → stableAt sizes (t + 1 - 1 - k) := by
            intro k hk
            match k with
            | 0 => simpa using hstab
            | k' + 1 =>
                have he : t + 1 - 1 - (k' + 1) = t - 1 - k' := by omega
                rw [he]
                exact h3 k' (by omega)
          have h4' : ¬ stableAt sizes (t + 1 - 1 - (count + 1)) := by
            have he : t + 1 - 1 - (count + 1) = t - 1 - count := by omega
            rw [he]
            exact h4
          have hih := ih (t + 1) prev (count + 1) (by omega) hprev2 h3' h4'
          constructor
          · intro r hr
            rw [hstep] at hr
            obtain ⟨hr1, hr2, hr3, hr4⟩ := hih.1 r hr
            refine ⟨by omega, by omega, hr3, fun u hu1 hu2 => ?_⟩
            rcases Nat.eq_or_lt_of_le hu1 with he | hlt
            · rw [← he]
              exact hnr
            · exact hr4 u (by omega) hu2
          · intro hnone
            rw [hstep] at hnone
            intro u hu1 hu2
            rcases Nat.eq_or_lt_of_le hu1 with he | hlt
            · rw [← he]
              exact hnr
            · exact hih.2 hnone u (by omega) (by omega)
      · -- unstable sample: run resets
        have hnstab : ¬ stableAt sizes t := by
          rintro ⟨hpos, heq, hgz⟩
          apply hcond
          refine ⟨?_, hgz⟩
          rw [heq, hprev, if_neg (by omega : ¬ t = 0)]
        have hnr : ¬ readyWindow sizes t := fun hw => hnstab hw.1
        have hstep : waitForFileReadyAux sizes (fuel + 1) t prev count =
            waitForFileReadyAux sizes fuel (t + 1) (sizes t) 0 := by
          simp only [waitForFileReadyAux]
          rw [if_neg hcond]
        have hprev2 : sizes t = (if t + 1 = 0 then 0 else sizes (t + 1 - 1)) := by
          simp
        have h3' : ∀ k, k < 0 → stableAt sizes (t + 1 - 1 - k) := by
          intro k hk
          omega
        have h4' : ¬ stableAt sizes (t + 1 - 1 - 0) := by
          simpa using hnstab
        have hih := ih (t + 1) (sizes t) 0 (by omega) hprev2 h3' h4'
        constructor
        · intro r hr
          rw [hstep] at hr
          obtain ⟨hr1, hr2, hr3, hr4⟩ := hih.1 r hr
          refine ⟨by omega, by omega, hr3, fun u hu1 hu2 => ?_⟩
          rcases Nat.eq_or_lt_of_le hu1 with he | hlt
          · rw [← he]
            exact hnr
          · exact hr4 u (by omega) hu2
        · intro hnone
          rw [hstep] at hnone
          intro u hu1 hu2
          rcases Nat.eq_or_lt_of_le hu1 with he | hlt
          · rw [← he]
            exact hnr
          · exact hih.2 hnone u (by omega) (by omega)

/-- C7: on any trace of sampled sizes, `_wait_for_file_ready` signals
ready at a sample index `t` only when `3 ≤ t < 30` and the sampled size
has been unchanged and non-zero across the three consecutive confirmations
ending at `t` (samples `t-3`, `t-2`, `t-1`, `t` all equal and positive);
and when it instead exhausts its 30-sample budget (returning with a
warning, the path treated as ready), no three-confirmation stable window
completed anywhere within the budget. -/
theorem c7_ready_only_after_three_stable_samples (sizes : Nat → Nat) :
    (∀ t, waitForFileReady sizes = some t →
      3 ≤ t ∧ t < 30 ∧ 0 < sizes t ∧ sizes (t - 1) = sizes t ∧
        sizes (t - 2) = sizes t ∧ sizes (t - 3) = sizes t) ∧
    (waitForFileReady sizes = none →
      ∀ t, t < 30 → ¬ readyWindow sizes t) := by
  have h0 : ¬ stableAt sizes (0 - 1 - 0) := by
    rintro ⟨h, _, _⟩
    omega
  have hspec := waitForFileReadyAux_spec sizes 30 0 0 0 (by omega)
    (by simp) (fun k hk => absurd hk (by omega)) h0
  constructor
  · intro t ht
    obtain ⟨_, hlt, ⟨w1, w2, w3⟩, _⟩ := hspec.1 t ht
    obtain ⟨hp1, he1, hz1⟩ := w1
    obtain ⟨hp2, he2, _⟩ := w2
    obtain ⟨hp3, he3, _⟩ := w3
    have ht3 : 3 ≤ t := by omega
    have k1 : t - 1 - 1 = t - 2 := by omega
    have k2 : t - 2 - 1 = t - 3 := by omega
    rw [k1] at he2
    rw [k2] at he3
    refine ⟨ht3, by omega, hz1, he1.symm, ?_, ?_⟩
    · rw [he2.symm, he1.symm]
    · rw [he3.symm, he2.symm, he1.symm]
  · intro hnone t ht
    exact hspec.2 hnone t (by omega) (by omega)

/-- The spec's scenario trace: a file appears empty, reaches 1000 bytes at
second 1, then stops changing. -/
def c7SampleTrace (t : Nat) : Nat :=
  if t = 0 then 0 else 1000

/-- Witness for C7: on the scenario trace the detector signals ready at
sample 4 — exactly after three consecutive stable non-zero confirmations
(samples 1,2,3,4 all read 1000). -/
theorem c7_witness :
    3 ≤ 4 ∧ 4 < 30 ∧ 0 < c7SampleTrace 4 ∧
      c7SampleTrace (4 - 1) = c7SampleTrace 4 ∧
      c7SampleTrace (4 - 2) = c7SampleTrace 4 ∧
      c7SampleTrace (4 - 3) = c7SampleTrace 4 :=
  (c7_ready_only_after_three_stable_samples c7SampleTrace).1 4 (by decide)
